import Mathlib

/-!
Shallow embedding of `src/ts-bot.py`: a Telegram bot that mirrors TeamSpeak
presence into chat messages, with a single "live" status message that is
created on demand, persisted to a one-line file, recovered on restart and
edited in place on a periodic tick.

Pure functions (`get_user_list`'s partition step, `format_user_list`, the
durable-record serialization and parsing) are translated as Lean functions;
the network and file side effects are made explicit through a `BotState`
record, an `Env` record for the environment's responses, and a list of
`Effect`s describing the outbound calls each operation performs.
-/

/-- Python `str.lower`, modelled character-wise. -/
def pyLower (s : String) : String := String.map Char.toLower s

/-- The comparison used by `sorted(..., key=str.lower)`: ascending by the
lowercased form of the nickname. -/
def lowerLe (a b : String) : Prop := pyLower a ≤ pyLower b

instance : DecidableRel lowerLe := fun a b =>
  inferInstanceAs (Decidable (pyLower a ≤ pyLower b))

instance : IsTotal String lowerLe := ⟨fun a b => le_total (pyLower a) (pyLower b)⟩

instance : IsTrans String lowerLe := ⟨fun _ _ _ hab hbc => le_trans hab hbc⟩

/-- One entry of the upstream `clientlist` JSON body. Every field arrives as a
string in the TeamSpeak WebQuery payload, which is why the source compares
them against the string literals `'0'` and `'1'`. -/
structure Client where
  client_type : String
  client_nickname : String
  client_away : String
  client_output_muted : String
deriving DecidableEq, Repr

/-- Model of `get_user_list` (src/ts-bot.py:23-36): keep the entries with
`client_type == '0'`, collect the nicknames whose away flag or output-mute
flag is `'1'` into the away set, subtract it from the set of all real-user
nicknames to get the active set, and sort both case-insensitively. Python's
sets are modelled as deduplicated lists; the HTTP call is modelled by passing
the decoded body directly. -/
def get_user_list (body : List Client) : List String × List String :=
  let users := body.filter (fun u => decide (u.client_type = "0"))
  let away_nicknames :=
    ((users.filter
        (fun u => decide (u.client_away = "1" ∨ u.client_output_muted = "1"))).map
      Client.client_nickname).dedup
  let all_nicknames := (users.map Client.client_nickname).dedup
  let active_nicknames := all_nicknames.filter (fun n => decide (¬ n ∈ away_nicknames))
  (List.insertionSort lowerLe active_nicknames, List.insertionSort lowerLe away_nicknames)

/-- The characters escaped by `telegram.helpers.escape_markdown` at its
default version 1: underscore, asterisk, backquote, opening bracket. -/
def escapeChars : List Char := ['_', '*', Char.ofNat 96, '[']

/-- Model of `telegram.helpers.escape_markdown` (default version 1), as called on each
nickname by `format_user_list`: prefix a backslash to each occurrence of a
character from `escapeChars`. -/
def escape_markdown (text : String) : String :=
  String.mk (text.toList.foldr
    (fun c acc => if c ∈ escapeChars then '\\' :: c :: acc else c :: acc) [])

/-- Python `", ".join(l)`. -/
def commaJoin : List String → String
  | [] => ""
  | [x] => x
  | x :: y :: rest => x ++ ", " ++ commaJoin (y :: rest)

/-- Model of `format_user_list` (src/ts-bot.py:60-72). The Python f-string renders:
the active count, a backslash-escaped plus, the away count wrapped in
underscores (italic styling), `": "`, the escaped active nicknames
comma-joined; then, when the away list is non-empty, a backslash-escaped
plus and each escaped away nickname wrapped in underscores, comma-joined. -/
def format_user_list (active away : List String) : String :=
  let temp := toString active.length ++ "\\+_" ++ toString away.length ++ "_: "
      ++ commaJoin (active.map escape_markdown)
  match away with
  | [] => temp
  | a :: rest =>
    rest.foldl (fun acc u => acc ++ ", _" ++ escape_markdown u ++ "_")
      (temp ++ " \\+ _" ++ escape_markdown a ++ "_")

/-- The away-list tail produced by the formatter's loop over `away[1:]`:
each further away nickname escaped, wrapped in underscores and preceded by
a comma separator. -/
def commaTail : List String → String
  | [] => ""
  | u :: rest => ", _" ++ escape_markdown u ++ "_" ++ commaTail rest

/-- The output shape as the specification describes it (with the two
corrections the code forces): count header with the plus sign
backslash-escaped and the away count italic-styled, the escaped active
names comma-joined, and, when away is non-empty, a backslash-escaped plus
followed by the away names each escaped, styled with underscores, and
comma-joined. -/
def formatStatusSpec (active away : List String) : String :=
  toString active.length ++ "\\+_" ++ toString away.length ++ "_: "
    ++ commaJoin (active.map escape_markdown)
    ++ match away with
       | [] => ""
       | _ :: _ =>
         " \\+ " ++ commaJoin (away.map (fun u => "_" ++ escape_markdown u ++ "_"))

theorem str_append_assoc (a b c : String) : a ++ b ++ c = a ++ (b ++ c) := by
  apply String.ext
  simp

theorem str_append_empty (a : String) : a ++ "" = a := by
  apply String.ext
  simp

theorem fold_away_eq (rest : List String) :
    ∀ p : String,
      rest.foldl (fun acc u => acc ++ ", _" ++ escape_markdown u ++ "_") p
        = p ++ commaTail rest := by
  induction rest with
  | nil => intro p; exact (str_append_empty p).symm
  | cons u t ih =>
    intro p
    show t.foldl _ (p ++ ", _" ++ escape_markdown u ++ "_") = _
    rw [ih]
    apply String.ext
    simp [commaTail]

theorem commaJoin_styled (a : String) (rest : List String) :
    commaJoin ((a :: rest).map (fun u => "_" ++ escape_markdown u ++ "_"))
      = "_" ++ escape_markdown a ++ "_" ++ commaTail rest := by
  induction rest generalizing a with
  | nil => exact (str_append_empty _).symm
  | cons b t ih =>
    show ("_" ++ escape_markdown a ++ "_") ++ ", " ++ commaJoin _ = _
    have h := ih b
    rw [List.map_cons] at h
    rw [h]
    apply String.ext
    simp [commaTail]

/-- Equivalence of `format_user_list` with the (corrected) spec shape. -/
theorem format_user_list_eq (active away : List String) :
    format_user_list active away = formatStatusSpec active away := by
  cases away with
  | nil => exact (str_append_empty _).symm
  | cons a rest =>
    show rest.foldl _ _ = _
    rw [fold_away_eq]
    unfold formatStatusSpec
    rw [commaJoin_styled]
    apply String.ext
    simp

theorem mem_get_user_list_away (body : List Client) (n : String) :
    n ∈ (get_user_list body).2 ↔
      ∃ u ∈ body, u.client_type = "0" ∧ u.client_nickname = n ∧
        (u.client_away = "1" ∨ u.client_output_muted = "1") := by
  simp only [get_user_list, List.mem_insertionSort, List.mem_dedup, List.mem_map,
    List.mem_filter, decide_eq_true_iff]
  constructor
  · rintro ⟨u, ⟨⟨hu, ht⟩, hf⟩, hn⟩
    exact ⟨u, hu, ht, hn, hf⟩
  · rintro ⟨u, hu, ht, hn, hf⟩
    exact ⟨u, ⟨⟨hu, ht⟩, hf⟩, hn⟩

theorem mem_get_user_list_active (body : List Client) (n : String) :
    n ∈ (get_user_list body).1 ↔
      (∃ u ∈ body, u.client_type = "0" ∧ u.client_nickname = n) ∧
        ¬ ∃ u ∈ body, u.client_type = "0" ∧ u.client_nickname = n ∧
          (u.client_away = "1" ∨ u.client_output_muted = "1") := by
  have haway := mem_get_user_list_away body n
  simp only [get_user_list, List.mem_insertionSort, List.mem_dedup, List.mem_map,
    List.mem_filter, decide_eq_true_iff] at haway ⊢
  constructor
  · rintro ⟨⟨u, ⟨hu, ht⟩, hn⟩, hno⟩
    refine ⟨⟨u, hu, ht, hn⟩, ?_⟩
    intro hex
    exact hno (haway.mpr hex)
  · rintro ⟨⟨u, hu, ht, hn⟩, hno⟩
    refine ⟨⟨u, ⟨hu, ht⟩, hn⟩, ?_⟩
    intro hmem
    exact hno (haway.mp hmem)

/-- C2: `get_user_list` partitions exactly the `client_type == '0'` entries:
the union of the two returned nickname sets is the set of real-user
nicknames, a nickname is away iff some real-user entry carrying it has the
away flag or the output-mute flag set, and the two sets are disjoint. -/
theorem C2_partition_real_users (body : List Client) :
    (∀ n, (n ∈ (get_user_list body).1 ∨ n ∈ (get_user_list body).2) ↔
      ∃ u ∈ body, u.client_type = "0" ∧ u.client_nickname = n)
    ∧ (∀ n, n ∈ (get_user_list body).2 ↔
      ∃ u ∈ body, u.client_type = "0" ∧ u.client_nickname = n ∧
        (u.client_away = "1" ∨ u.client_output_muted = "1"))
    ∧ ∀ n, ¬ (n ∈ (get_user_list body).1 ∧ n ∈ (get_user_list body).2) := by
  refine ⟨?_, fun n => mem_get_user_list_away body n, ?_⟩
  · intro n
    rw [mem_get_user_list_active, mem_get_user_list_away]
    constructor
    · rintro (⟨h, _⟩ | ⟨u, hu, ht, hn, _⟩)
      · exact h
      · exact ⟨u, hu, ht, hn⟩
    · intro h
      by_cases haw : ∃ u ∈ body, u.client_type = "0" ∧ u.client_nickname = n ∧
          (u.client_away = "1" ∨ u.client_output_muted = "1")
      · exact Or.inr haw
      · exact Or.inl ⟨h, haw⟩
  · intro n ⟨hact, haw⟩
    rw [mem_get_user_list_active] at hact
    rw [mem_get_user_list_away] at haw
    exact hact.2 haw

/-- C8: both lists returned by `get_user_list` are sorted ascending by the
lowercased form of the nickname, whatever the order of the payload. -/
theorem C8_sorted_case_insensitive (body : List Client) :
    List.Sorted lowerLe (get_user_list body).1
      ∧ List.Sorted lowerLe (get_user_list body).2 :=
  ⟨List.sorted_insertionSort lowerLe _, List.sorted_insertionSort lowerLe _⟩

/-- C10: the returned lists are duplicate-free, and a nickname carried by
any away-classified real-user entry lands in the away list and is excluded
from the active list (active is the set difference of all real-user
nicknames and the away nicknames). -/
theorem C10_dedup_and_away_wins (body : List Client) :
    (get_user_list body).1.Nodup ∧ (get_user_list body).2.Nodup
    ∧ ∀ n, (∃ u ∈ body, u.client_type = "0" ∧ u.client_nickname = n ∧
        (u.client_away = "1" ∨ u.client_output_muted = "1")) →
      n ∈ (get_user_list body).2 ∧ ¬ n ∈ (get_user_list body).1 := by
  refine ⟨?_, ?_, ?_⟩
  · exact ((List.perm_insertionSort lowerLe _).nodup_iff).mpr
      ((List.nodup_dedup _).filter _)
  · exact ((List.perm_insertionSort lowerLe _).nodup_iff).mpr (List.nodup_dedup _)
  · intro n hex
    refine ⟨(mem_get_user_list_away body n).mpr hex, ?_⟩
    intro hact
    exact ((mem_get_user_list_active body n).mp hact).2 hex

/-! Section: the durable live-message record.

`ts_get_users_live` writes `f"{update.effective_chat.id},{sent_message.message_id}"`
to `config/live_chat_id.txt`; `get_live_message` reads it back with
`[int(x) for x in f.read().strip().split(",")]`. File contents are modelled
as `List Char`. -/

/-- The whitespace characters stripped by Python's `str.strip` (the ASCII
ones; none can occur in a record the bot writes). -/
def pySpace (c : Char) : Bool :=
  decide (c = ' ' ∨ c = '\t' ∨ c = '\n' ∨ c = '\x0d' ∨ c = '\x0b' ∨ c = '\x0c')

/-- Python `str.strip()`: drop leading and trailing whitespace. -/
def pyStrip (l : List Char) : List Char :=
  ((l.dropWhile pySpace).reverse.dropWhile pySpace).reverse

/-- Python `str.split(",")`. -/
def pySplitComma : List Char → List (List Char)
  | [] => [[]]
  | c :: rest =>
    if c = ',' then [] :: pySplitComma rest
    else
      match pySplitComma rest with
      | [] => [[c]]
      | p :: ps => (c :: p) :: ps

def charToDigit (c : Char) : Option Nat :=
  if '0' ≤ c ∧ c ≤ '9' then some (c.toNat - '0'.toNat) else none

def parseDigitsAux (acc : Nat) : List Char → Option Nat
  | [] => some acc
  | c :: cs =>
    match charToDigit c with
    | none => none
    | some d => parseDigitsAux (acc * 10 + d) cs

/-- Python `int(s)` on a decimal literal: strip whitespace, optional sign,
then a non-empty run of digits (digit-group underscores are not modelled;
the bot never writes them). -/
def pyIntOfChars (cs0 : List Char) : Option Int :=
  match pyStrip cs0 with
  | [] => none
  | c :: rest =>
    if c = '-' then
      match rest with
      | [] => none
      | _ :: _ => (parseDigitsAux 0 rest).map (fun n => -(n : Int))
    else if c = '+' then
      match rest with
      | [] => none
      | _ :: _ => (parseDigitsAux 0 rest).map (fun n => (n : Int))
    else (parseDigitsAux 0 (c :: rest)).map (fun n => (n : Int))

/-- Decimal rendering of a natural number, as a Python f-string prints it. -/
def natToChars (n : Nat) : List Char :=
  if n = 0 then ['0'] else ((Nat.digits 10 n).map Nat.digitChar).reverse

/-- Decimal rendering of an integer, as a Python f-string prints it. -/
def intToChars : Int → List Char
  | Int.ofNat n => natToChars n
  | Int.negSucc n => '-' :: natToChars (n + 1)

/-- The single-line record `f"{chat_id},{message_id}"` (src/ts-bot.py:139). -/
def writeRecord (chat_id message_id : Int) : List Char :=
  intToChars chat_id ++ ',' :: intToChars message_id

/-- The recovery parse `[int(x) for x in f.read().strip().split(",")]`
unpacked into exactly two values (src/ts-bot.py:94); any other shape raises
and is caught by the surrounding handler, modelled as `none`. -/
def parseRecord (cs : List Char) : Option (Int × Int) :=
  match pySplitComma (pyStrip cs) with
  | [a, b] =>
    match pyIntOfChars a, pyIntOfChars b with
    | some x, some y => some (x, y)
    | _, _ => none
  | _ => none

theorem charToDigit_digitChar (d : Nat) (hd : d < 10) :
    charToDigit (Nat.digitChar d) = some d := by
  interval_cases d <;> decide

theorem parseDigitsAux_append (l1 l2 : List Char) (acc : Nat) :
    parseDigitsAux acc (l1 ++ l2)
      = match parseDigitsAux acc l1 with
        | none => none
        | some a => parseDigitsAux a l2 := by
  induction l1 generalizing acc with
  | nil => rfl
  | cons c cs ih =>
    cases h : charToDigit c with
    | none => simp [parseDigitsAux, h]
    | some d => simp [parseDigitsAux, h, ih]

theorem parse_rev_digits :
    ∀ l : List Nat, (∀ d ∈ l, d < 10) → ∀ acc : Nat,
      parseDigitsAux acc ((l.map Nat.digitChar).reverse)
        = some (acc * 10 ^ l.length + Nat.ofDigits 10 l) := by
  intro l
  induction l with
  | nil => intro _ acc; simp [parseDigitsAux]
  | cons d t ih =>
    intro h acc
    have hd : d < 10 := h d (by simp)
    have ht : ∀ x ∈ t, x < 10 := fun x hx => h x (by simp [hx])
    rw [List.map_cons, List.reverse_cons, parseDigitsAux_append, ih ht acc]
    simp only [parseDigitsAux, charToDigit_digitChar d hd, Nat.ofDigits_cons,
      Option.some.injEq, List.length_cons]
    ring

theorem natToChars_digit (n : Nat) : ∀ c ∈ natToChars n, '0' ≤ c ∧ c ≤ '9' := by
  intro c hc
  unfold natToChars at hc
  split at hc
  · simp only [List.mem_singleton] at hc
    subst hc
    decide
  · simp only [List.mem_reverse, List.mem_map] at hc
    obtain ⟨d, hd, rfl⟩ := hc
    have : d < 10 := Nat.digits_lt_base (by norm_num) hd
    interval_cases d <;> decide

theorem natToChars_ne_nil (n : Nat) : natToChars n ≠ [] := by
  unfold natToChars
  split
  · simp
  · simp only [ne_eq, List.reverse_eq_nil_iff, List.map_eq_nil_iff,
      Nat.digits_eq_nil_iff_eq_zero]
    assumption

theorem parseDigitsAux_natToChars (n : Nat) :
    parseDigitsAux 0 (natToChars n) = some n := by
  unfold natToChars
  split
  · rename_i h
    subst h
    decide
  · rw [parse_rev_digits (Nat.digits 10 n)
      (fun d hd => Nat.digits_lt_base (by norm_num) hd) 0]
    simp [Nat.ofDigits_digits]

theorem digit_not_space {c : Char} (h : '0' ≤ c ∧ c ≤ '9') : pySpace c = false := by
  obtain ⟨h1, h2⟩ := h
  simp only [pySpace, decide_eq_false_iff_not]
  rintro (rfl | rfl | rfl | rfl | rfl | rfl) <;> exact absurd h1 (by decide)

theorem digit_ne_comma {c : Char} (h : '0' ≤ c ∧ c ≤ '9') : c ≠ ',' := by
  rintro rfl
  exact absurd h.1 (by decide)

theorem digit_ne_minus {c : Char} (h : '0' ≤ c ∧ c ≤ '9') : c ≠ '-' := by
  rintro rfl
  exact absurd h.1 (by decide)

theorem digit_ne_plus {c : Char} (h : '0' ≤ c ∧ c ≤ '9') : c ≠ '+' := by
  rintro rfl
  exact absurd h.1 (by decide)

theorem dropWhile_eq_self_of_none {p : Char → Bool} {l : List Char}
    (h : ∀ c ∈ l, p c = false) : l.dropWhile p = l := by
  cases l with
  | nil => rfl
  | cons c cs => simp [List.dropWhile, h c (by simp)]

theorem pyStrip_eq_self {l : List Char} (h : ∀ c ∈ l, pySpace c = false) :
    pyStrip l = l := by
  unfold pyStrip
  rw [dropWhile_eq_self_of_none h,
    dropWhile_eq_self_of_none (fun c hc => h c (List.mem_reverse.mp hc)),
    List.reverse_reverse]

theorem pySplitComma_no_comma {l : List Char} (h : ∀ c ∈ l, c ≠ ',') :
    pySplitComma l = [l] := by
  induction l with
  | nil => rfl
  | cons c cs ih =>
    have hc : c ≠ ',' := h c (by simp)
    have hcs : ∀ x ∈ cs, x ≠ ',' := fun x hx => h x (by simp [hx])
    unfold pySplitComma
    rw [if_neg hc, ih hcs]

theorem pySplitComma_append {l1 l2 : List Char} (h1 : ∀ c ∈ l1, c ≠ ',')
    (h2 : ∀ c ∈ l2, c ≠ ',') :
    pySplitComma (l1 ++ ',' :: l2) = [l1, l2] := by
  induction l1 with
  | nil =>
    show pySplitComma (',' :: l2) = [[], l2]
    unfold pySplitComma
    rw [if_pos rfl, pySplitComma_no_comma h2]
  | cons c cs ih =>
    have hc : c ≠ ',' := h1 c (by simp)
    have hcs : ∀ x ∈ cs, x ≠ ',' := fun x hx => h1 x (by simp [hx])
    show pySplitComma (c :: (cs ++ ',' :: l2)) = [c :: cs, l2]
    unfold pySplitComma
    rw [if_neg hc, ih hcs]

theorem intToChars_digit_or_minus (i : Int) :
    ∀ c ∈ intToChars i, ('0' ≤ c ∧ c ≤ '9') ∨ c = '-' := by
  intro c hc
  cases i with
  | ofNat n => exact Or.inl (natToChars_digit n c hc)
  | negSucc n =>
    rcases List.mem_cons.mp hc with rfl | hmem
    · exact Or.inr rfl
    · exact Or.inl (natToChars_digit (n + 1) c hmem)

theorem intToChars_ne_comma (i : Int) : ∀ c ∈ intToChars i, c ≠ ',' := by
  intro c hc
  rcases intToChars_digit_or_minus i c hc with h | rfl
  · exact digit_ne_comma h
  · decide

theorem intToChars_not_space (i : Int) : ∀ c ∈ intToChars i, pySpace c = false := by
  intro c hc
  rcases intToChars_digit_or_minus i c hc with h | rfl
  · exact digit_not_space h
  · decide

theorem pyInt_intToChars (i : Int) : pyIntOfChars (intToChars i) = some i := by
  cases i with
  | ofNat n =>
    show pyIntOfChars (natToChars n) = some (Int.ofNat n)
    unfold pyIntOfChars
    rw [pyStrip_eq_self (fun c hc => digit_not_space (natToChars_digit n c hc))]
    obtain ⟨c, rest, hcr⟩ : ∃ c rest, natToChars n = c :: rest := by
      cases h : natToChars n with
      | nil => exact absurd h (natToChars_ne_nil n)
      | cons c rest => exact ⟨c, rest, rfl⟩
    rw [hcr]
    have hd := natToChars_digit n c (by rw [hcr]; simp)
    simp only []
    rw [if_neg (digit_ne_minus hd), if_neg (digit_ne_plus hd), ← hcr,
      parseDigitsAux_natToChars n]
    rfl
  | negSucc n =>
    show pyIntOfChars ('-' :: natToChars (n + 1)) = some (Int.negSucc n)
    unfold pyIntOfChars
    rw [pyStrip_eq_self ?hsp]
    case hsp =>
      intro c hc
      rcases List.mem_cons.mp hc with rfl | hmem
      · decide
      · exact digit_not_space (natToChars_digit (n + 1) c hmem)
    obtain ⟨c, rest, hcr⟩ : ∃ c rest, natToChars (n + 1) = c :: rest := by
      cases h : natToChars (n + 1) with
      | nil => exact absurd h (natToChars_ne_nil (n + 1))
      | cons c rest => exact ⟨c, rest, rfl⟩
    rw [hcr]
    simp only []
    rw [if_pos trivial]
    rw [← hcr, parseDigitsAux_natToChars (n + 1)]
    simp [Int.negSucc_eq]

/-- The durable record round-trips: parsing the written one-line record
yields back the identical pair. Shared by the recovery model and C9. -/
theorem parseRecord_writeRecord (c m : Int) :
    parseRecord (writeRecord c m) = some (c, m) := by
  unfold parseRecord writeRecord
  rw [pyStrip_eq_self ?hsp]
  case hsp =>
    intro x hx
    rcases List.mem_append.mp hx with hxc | hxm
    · exact intToChars_not_space c x hxc
    · rcases List.mem_cons.mp hxm with rfl | hxm'
      · decide
      · exact intToChars_not_space m x hxm'
  rw [pySplitComma_append (intToChars_ne_comma c) (intToChars_ne_comma m)]
  simp [pyInt_intToChars]

/-! Section: the live-message synchronizer.

`bot_data` and the `config/live_chat_id.txt` file become an explicit
`BotState`; the Telegram and TeamSpeak network calls become an `Effect`
trace, with the environment's responses (presence payload, whether an edit
of a given message succeeds, the id a newly sent message gets) supplied by
an `Env` record. -/

/-- The slice of a `telegram.Message` the bot reads back: its chat id, its
message id, and `text_markdown_v2`, the MarkdownV2 rendering of its text
that `update_live_message` compares against. -/
structure TgMessage where
  chat_id : Int
  message_id : Int
  text_markdown_v2 : String
deriving DecidableEq, Repr

/-- The mutable state: `bot_data["live_msg"]` and the contents of
`config/live_chat_id.txt` (`none` = the file does not exist). -/
structure BotState where
  live_msg : Option TgMessage
  live_file : Option (List Char)
deriving DecidableEq, Repr

/-- The environment's responses: the decoded presence payload, whether an
`edit_message_text` on a given (chat id, message id) succeeds, and the
message id the chat platform assigns to a newly sent message. -/
structure Env where
  body : List Client
  edit_ok : Int → Int → Bool
  fresh_id : Int

/-- One outbound side effect. -/
inductive Effect where
  | fetch
  | send (chat_id : Int) (reply_to : Option Int) (text : String)
  | edit (chat_id : Int) (message_id : Int) (text : String)
  | log (entry : String)
  | writeLiveFile (content : List Char)
deriving DecidableEq, Repr

def Effect.isSend : Effect → Bool
  | Effect.send _ _ _ => true
  | _ => false

def noLiveLog : String :=
  "No live message to update. Trying to load message ID from file."

def readFailLog : String := "Failed to read chat ID from file: error"

def recoveredLog : String := "Live message created from chat ID in file."

def noneFoundLog : String := "No live message found."

def noticeText : String := "Live message already exists. Please wait for it to update."

/-- Model of `get_live_message` (src/ts-bot.py:86-110): return the in-memory handle
if present; otherwise try to recover from the durable record by editing the
recorded message with the placeholder "Initializing..." as a liveness
probe. Any exception on the way (missing file, malformed record, failed
edit) is logged and leaves the handle unset. -/
def get_live_message (env : Env) (st : BotState) :
    Option TgMessage × BotState × List Effect :=
  match st.live_msg with
  | some m => (some m, st, [])
  | none =>
    match st.live_file with
    | none =>
      (none, st, [Effect.log noLiveLog, Effect.log readFailLog, Effect.log noneFoundLog])
    | some content =>
      match parseRecord content with
      | none =>
        (none, st, [Effect.log noLiveLog, Effect.log readFailLog, Effect.log noneFoundLog])
      | some (chat_id, message_id) =>
        if env.edit_ok chat_id message_id then
          (some ⟨chat_id, message_id, "Initializing..."⟩,
           { st with live_msg := some ⟨chat_id, message_id, "Initializing..."⟩ },
           [Effect.log noLiveLog, Effect.edit chat_id message_id "Initializing...",
            Effect.log recoveredLog])
        else
          (none, st,
           [Effect.log noLiveLog, Effect.edit chat_id message_id "Initializing...",
            Effect.log readFailLog, Effect.log noneFoundLog])

/-- Model of `ts_get_users_live` (src/ts-bot.py:113-139): if a live message exists
(in memory or recovered), reply to it with the wait notice; otherwise fetch
presence, send a new live message, store its handle and write the durable
record. -/
def ts_get_users_live (env : Env) (chat : Int) (st : BotState) :
    BotState × List Effect :=
  let r := get_live_message env st
  match r.1 with
  | some m => (r.2.1, r.2.2 ++ [Effect.send chat (some m.message_id) noticeText])
  | none =>
    let ul := get_user_list env.body
    let text := format_user_list ul.1 ul.2
    let record := writeRecord chat env.fresh_id
    ({ live_msg := some ⟨chat, env.fresh_id, text⟩, live_file := some record },
     r.2.2 ++ [Effect.fetch, Effect.send chat none text, Effect.writeLiveFile record])

/-- Model of `update_live_message` (src/ts-bot.py:142-152), the periodic tick: with a
live handle, fetch and format presence and edit the message only when the
text differs from the message's current MarkdownV2 rendering; a failing
edit raises out of the job, skipping the handle update. -/
def update_live_message (env : Env) (st : BotState) : BotState × List Effect :=
  let r := get_live_message env st
  match r.1 with
  | none => (r.2.1, r.2.2)
  | some m =>
    let ul := get_user_list env.body
    let text := format_user_list ul.1 ul.2
    if text = m.text_markdown_v2 then
      (r.2.1, r.2.2 ++ [Effect.fetch])
    else
      if env.edit_ok m.chat_id m.message_id then
        ({ r.2.1 with live_msg := some { m with text_markdown_v2 := text } },
         r.2.2 ++ [Effect.fetch, Effect.edit m.chat_id m.message_id text])
      else
        (r.2.1, r.2.2 ++ [Effect.fetch, Effect.edit m.chat_id m.message_id text])

/-- Model of `check_perms` (src/ts-bot.py:155-165): log and raise
`ApplicationHandlerStop` when the chat id is not allow-listed, re-expressed
as a pass/reject flag plus the emitted log entry. -/
def check_perms (allowed_groups : List Int) (group_id : Int) (group_title : String) :
    Bool × List Effect :=
  if group_id ∈ allowed_groups then (true, [])
  else
    (false,
     [Effect.log ("Unauthorized access to group " ++ toString group_id
        ++ " (" ++ group_title ++ ")")])

/-- The bot's command surface (src/ts-bot.py:187-190). -/
inductive Command where
  | help
  | whoami
  | ts
  | tslive
deriving DecidableEq, Repr

/-- One inbound command interaction. -/
structure Interaction where
  chat_id : Int
  chat_title : String
  user_id : Int
  cmd : Command

/-- The per-command handlers registered in `main` (src/ts-bot.py:187-190). -/
def handle_command (env : Env) (i : Interaction) (st : BotState) :
    BotState × List Effect :=
  match i.cmd with
  | Command.help => (st, [Effect.send i.chat_id none "Help!"])
  | Command.whoami =>
    (st, [Effect.send i.chat_id none
      ("Your user ID is " ++ toString i.user_id ++ " and this group ID is "
        ++ toString i.chat_id)])
  | Command.ts =>
    let ul := get_user_list env.body
    (st, [Effect.fetch, Effect.send i.chat_id none (format_user_list ul.1 ul.2)])
  | Command.tslive => ts_get_users_live env i.chat_id st

/-- Dispatch of one inbound update, following the wiring in `main`
(src/ts-bot.py:182-190): `check_perms` is registered as a `TypeHandler` in
handler group -1 and so runs ahead of every command handler, and the
`ApplicationHandlerStop` it raises makes the application skip all later
handler groups — re-expressed here as an explicit short-circuit on the
gate's pass/reject flag (the framework's documented semantics). -/
def process_update (env : Env) (allowed_groups : List Int) (i : Interaction)
    (st : BotState) : BotState × List Effect :=
  let gate := check_perms allowed_groups i.chat_id i.chat_title
  if gate.1 then
    let r := handle_command env i st
    (r.1, gate.2 ++ r.2)
  else (st, gate.2)

/-! Section: helper lemmas about how the synchronizer handles state. -/

theorem glm_of_some (env : Env) (st : BotState) (m : TgMessage)
    (h : st.live_msg = some m) : get_live_message env st = (some m, st, []) := by
  unfold get_live_message
  rw [h]

theorem glm_file (env : Env) (st : BotState) :
    (get_live_message env st).2.1.live_file = st.live_file := by
  rcases st with ⟨lm, lf⟩
  cases lm with
  | some m => rfl
  | none =>
    cases lf with
    | none => rfl
    | some content =>
      simp only [get_live_message]
      cases parseRecord content with
      | none => rfl
      | some p =>
        rcases p with ⟨a, b⟩
        by_cases hok : env.edit_ok a b = true <;> simp [hok]

theorem glm_msg_mono (env : Env) (st : BotState) (h : st.live_msg.isSome = true) :
    (get_live_message env st).2.1.live_msg.isSome = true := by
  obtain ⟨m, hm⟩ := Option.isSome_iff_exists.mp h
  rw [glm_of_some env st m hm]
  exact h

theorem ts_file_mono (env : Env) (chat : Int) (st : BotState)
    (h : st.live_file.isSome = true) :
    (ts_get_users_live env chat st).1.live_file.isSome = true := by
  have hfile := glm_file env st
  rcases hgr : get_live_message env st with ⟨lm, st1, eff⟩
  rw [hgr] at hfile
  cases lm with
  | some m =>
    simp only [ts_get_users_live, hgr]
    rw [hfile]
    exact h
  | none => simp [ts_get_users_live, hgr]

theorem ts_msg_mono (env : Env) (chat : Int) (st : BotState)
    (h : st.live_msg.isSome = true) :
    (ts_get_users_live env chat st).1.live_msg.isSome = true := by
  obtain ⟨m, hm⟩ := Option.isSome_iff_exists.mp h
  simp [ts_get_users_live, glm_of_some env st m hm, hm]

theorem update_file (env : Env) (st : BotState) :
    (update_live_message env st).1.live_file = st.live_file := by
  have hfile := glm_file env st
  rcases hgr : get_live_message env st with ⟨lm, st1, eff⟩
  rw [hgr] at hfile
  cases lm with
  | none => simpa [update_live_message, hgr] using hfile
  | some m =>
    simp only [update_live_message, hgr]
    split
    · exact hfile
    · split
      · exact hfile
      · exact hfile

theorem update_msg_mono (env : Env) (st : BotState) (h : st.live_msg.isSome = true) :
    (update_live_message env st).1.live_msg.isSome = true := by
  obtain ⟨m, hm⟩ := Option.isSome_iff_exists.mp h
  simp only [update_live_message, glm_of_some env st m hm]
  split
  · exact h
  · split
    · simp
    · exact h

theorem ts_live_exists (env : Env) (chat : Int) (st : BotState) (m : TgMessage)
    (hm : st.live_msg = some m) :
    ts_get_users_live env chat st
      = (st, [Effect.send chat (some m.message_id) noticeText]) := by
  simp [ts_get_users_live, glm_of_some env st m hm]

theorem ts_create (env : Env) (chat : Int) (st : BotState)
    (hm : st.live_msg = none) (hf : st.live_file = none) :
    ts_get_users_live env chat st
      = (⟨some ⟨chat, env.fresh_id,
            format_user_list (get_user_list env.body).1 (get_user_list env.body).2⟩,
          some (writeRecord chat env.fresh_id)⟩,
         [Effect.log noLiveLog, Effect.log readFailLog, Effect.log noneFoundLog,
          Effect.fetch,
          Effect.send chat none
            (format_user_list (get_user_list env.body).1 (get_user_list env.body).2),
          Effect.writeLiveFile (writeRecord chat env.fresh_id)]) := by
  have hg : get_live_message env st
      = (none, st,
         [Effect.log noLiveLog, Effect.log readFailLog, Effect.log noneFoundLog]) := by
    simp [get_live_message, hm, hf]
  simp [ts_get_users_live, hg]

theorem glm_recover_ok (env : Env) (st : BotState) (chat_id message_id : Int)
    (hm : st.live_msg = none)
    (hf : st.live_file = some (writeRecord chat_id message_id))
    (hok : env.edit_ok chat_id message_id = true) :
    get_live_message env st
      = (some ⟨chat_id, message_id, "Initializing..."⟩,
         { st with live_msg := some ⟨chat_id, message_id, "Initializing..."⟩ },
         [Effect.log noLiveLog, Effect.edit chat_id message_id "Initializing...",
          Effect.log recoveredLog]) := by
  simp [get_live_message, hm, hf, parseRecord_writeRecord, hok]

theorem glm_recover_fail (env : Env) (st : BotState) (chat_id message_id : Int)
    (hm : st.live_msg = none)
    (hf : st.live_file = some (writeRecord chat_id message_id))
    (hfail : env.edit_ok chat_id message_id = false) :
    get_live_message env st
      = (none, st,
         [Effect.log noLiveLog, Effect.edit chat_id message_id "Initializing...",
          Effect.log readFailLog, Effect.log noneFoundLog]) := by
  simp [get_live_message, hm, hf, parseRecord_writeRecord, hfail]

/-! Section: the claims. -/

/-- C1: the claim's exact expected string does not match the code: the
formatter escapes the plus signs for MarkdownV2 and italicizes the away
count, so the example snapshot does not render as `"2+1: ..."`. -/
theorem C1_counterexample :
    format_user_list ["Alice", "bob"] ["Carol"] ≠ "2+1: Alice, bob + _Carol_" := by
  decide

/-- C1 (amended): for every snapshot the formatted string is
`"<activeCount>\+_<awayCount>_: <escaped active members, comma-joined>"`,
followed by `" \+ <escaped away members each wrapped in underscores,
comma-joined>"` exactly when away is non-empty (omitted when away is
empty): the plus signs are backslash-escaped and the away count is
italic-styled rather than plain; in particular the example snapshot
renders as `"2\+_1_: Alice, bob \+ _Carol_"`. -/
theorem C1_format_shape :
    (∀ active away : List String,
      format_user_list active away = formatStatusSpec active away)
    ∧ format_user_list ["Alice", "bob"] ["Carol"]
        = "2\\+_1_: Alice, bob \\+ _Carol_" :=
  ⟨format_user_list_eq, by decide⟩

/-- C9: the durable state round-trips: writing the single-line record
`"<chat_id>,<message_id>"` and parsing it back (strip, split on the comma,
convert each part with Python int) yields the identical pair, for all
integer ids (including the negative chat ids Telegram uses for groups). -/
theorem C9_record_roundtrip (chat_id message_id : Int) :
    parseRecord (writeRecord chat_id message_id) = some (chat_id, message_id) :=
  parseRecord_writeRecord chat_id message_id

/-- C4: on a tick with a live message held, the tick fetches presence,
formats it and compares against the message's last rendered text: if equal,
the only effect is the fetch and the state is untouched; if different and
the edit goes through, exactly one edit is issued and the stored handle's
text becomes the new string. The formatter is a pure function, so equal
snapshots give byte-identical output. -/
theorem C4_tick_compare_and_swap (env : Env) (st : BotState) (m : TgMessage)
    (text : String) (hm : st.live_msg = some m)
    (htext : text
      = format_user_list (get_user_list env.body).1 (get_user_list env.body).2) :
    (text = m.text_markdown_v2 →
      update_live_message env st = (st, [Effect.fetch]))
    ∧ (text ≠ m.text_markdown_v2 →
      env.edit_ok m.chat_id m.message_id = true →
      update_live_message env st
        = ({ st with live_msg := some { m with text_markdown_v2 := text } },
           [Effect.fetch, Effect.edit m.chat_id m.message_id text]))
    ∧ ∀ active away : List String,
        format_user_list active away = format_user_list active away := by
  subst htext
  have h1 := glm_of_some env st m hm
  refine ⟨?_, ?_, fun _ _ => rfl⟩
  · intro heq
    simp [update_live_message, h1, heq]
  · intro hne hok
    simp [update_live_message, h1, hne, hok]

theorem C4_witness :
    update_live_message ⟨[], fun _ _ => true, 0⟩
        ⟨some ⟨1, 2, format_user_list [] []⟩, none⟩
      = (⟨some ⟨1, 2, format_user_list [] []⟩, none⟩, [Effect.fetch]) :=
  (C4_tick_compare_and_swap ⟨[], fun _ _ => true, 0⟩
    ⟨some ⟨1, 2, format_user_list [] []⟩, none⟩ ⟨1, 2, format_user_list [] []⟩
    (format_user_list [] []) rfl rfl).1 rfl

/-- C5: an interaction from a non-allow-listed chat is short-circuited by
the gate: the state is untouched, no reply (or any other call) is sent, and
the only effect is one log entry recording the chat's id and title; an
interaction from an allow-listed chat is handled exactly by its command
handler. -/
theorem C5_access_gate (env : Env) (allowed_groups : List Int) (i : Interaction)
    (st : BotState) (hrej : ¬ i.chat_id ∈ allowed_groups) :
    process_update env allowed_groups i st
      = (st, [Effect.log ("Unauthorized access to group " ++ toString i.chat_id
          ++ " (" ++ i.chat_title ++ ")")])
    ∧ ∀ j : Interaction, j.chat_id ∈ allowed_groups →
        process_update env allowed_groups j st = handle_command env j st := by
  constructor
  · simp [process_update, check_perms, hrej]
  · intro j hj
    simp [process_update, check_perms, hj]

theorem C5_witness :
    process_update ⟨[], fun _ _ => true, 0⟩ [100] ⟨200, "g", 1, Command.whoami⟩
        ⟨none, none⟩
      = (⟨none, none⟩,
         [Effect.log ("Unauthorized access to group " ++ toString (200 : Int)
            ++ " (" ++ "g" ++ ")")]) :=
  (C5_access_gate ⟨[], fun _ _ => true, 0⟩ [100] ⟨200, "g", 1, Command.whoami⟩
    ⟨none, none⟩ (by decide)).1

/-- C6: with no handle in memory but a durable record present and a
successful probe-edit ("Initializing..."), `get_live_message` promotes the
recovered message to the stored live handle without any send; the periodic
tick then holds a handle and still sends no message. -/
theorem C6_recover_promotes (env : Env) (st : BotState) (chat_id message_id : Int)
    (hm : st.live_msg = none)
    (hf : st.live_file = some (writeRecord chat_id message_id))
    (hok : env.edit_ok chat_id message_id = true) :
    get_live_message env st
      = (some ⟨chat_id, message_id, "Initializing..."⟩,
         { st with live_msg := some ⟨chat_id, message_id, "Initializing..."⟩ },
         [Effect.log noLiveLog, Effect.edit chat_id message_id "Initializing...",
          Effect.log recoveredLog])
    ∧ (update_live_message env st).1.live_msg.isSome = true
    ∧ (update_live_message env st).2.filter Effect.isSend = [] := by
  have h1 := glm_recover_ok env st chat_id message_id hm hf hok
  refine ⟨h1, ?_, ?_⟩
  · simp only [update_live_message, h1]
    split
    all_goals simp
  · simp only [update_live_message, h1]
    split
    all_goals simp [Effect.isSend]

theorem C6_witness :
    get_live_message ⟨[], fun _ _ => true, 0⟩ ⟨none, some (writeRecord 5 7)⟩
      = (some ⟨5, 7, "Initializing..."⟩,
         ⟨some ⟨5, 7, "Initializing..."⟩, some (writeRecord 5 7)⟩,
         [Effect.log noLiveLog, Effect.edit 5 7 "Initializing...",
          Effect.log recoveredLog]) :=
  (C6_recover_promotes ⟨[], fun _ _ => true, 0⟩ ⟨none, some (writeRecord 5 7)⟩
    5 7 rfl rfl rfl).1

/-- C7: a failed probe-edit is logged, yields no handle and leaves the
state (durable record included) untouched, so the next tick repeats the
same recovery attempt; moreover no synchronizer operation ever deletes the
durable record or clears an in-memory handle once set. -/
theorem C7_probe_fail_no_cleanup (env : Env) (st : BotState)
    (chat_id message_id : Int)
    (hm : st.live_msg = none)
    (hf : st.live_file = some (writeRecord chat_id message_id))
    (hfail : env.edit_ok chat_id message_id = false) :
    get_live_message env st
      = (none, st,
         [Effect.log noLiveLog, Effect.edit chat_id message_id "Initializing...",
          Effect.log readFailLog, Effect.log noneFoundLog])
    ∧ update_live_message env st
      = (st,
         [Effect.log noLiveLog, Effect.edit chat_id message_id "Initializing...",
          Effect.log readFailLog, Effect.log noneFoundLog])
    ∧ (∀ (env2 : Env) (st2 : BotState) (chat : Int),
        (st2.live_file.isSome = true →
          (get_live_message env2 st2).2.1.live_file.isSome = true
          ∧ (ts_get_users_live env2 chat st2).1.live_file.isSome = true
          ∧ (update_live_message env2 st2).1.live_file.isSome = true)
        ∧ (st2.live_msg.isSome = true →
          (get_live_message env2 st2).2.1.live_msg.isSome = true
          ∧ (ts_get_users_live env2 chat st2).1.live_msg.isSome = true
          ∧ (update_live_message env2 st2).1.live_msg.isSome = true)) := by
  have h1 := glm_recover_fail env st chat_id message_id hm hf hfail
  refine ⟨h1, ?_, ?_⟩
  · simp [update_live_message, h1]
  · intro env2 st2 chat
    constructor
    · intro h
      refine ⟨?_, ts_file_mono env2 chat st2 h, ?_⟩
      · rw [glm_file]
        exact h
      · rw [update_file]
        exact h
    · intro h
      exact ⟨glm_msg_mono env2 st2 h, ts_msg_mono env2 chat st2 h,
        update_msg_mono env2 st2 h⟩

theorem C7_witness :
    get_live_message ⟨[], fun _ _ => false, 0⟩ ⟨none, some (writeRecord 5 7)⟩
      = (none, ⟨none, some (writeRecord 5 7)⟩,
         [Effect.log noLiveLog, Effect.edit 5 7 "Initializing...",
          Effect.log readFailLog, Effect.log noneFoundLog]) :=
  (C7_probe_fail_no_cleanup ⟨[], fun _ _ => false, 0⟩ ⟨none, some (writeRecord 5 7)⟩
    5 7 rfl rfl rfl).1

/-- C3: the claim's "leaves the stored live-message handle unchanged" fails
in the recoverable-from-disk case: there the handle goes from `none` to the
recovered message. -/
theorem C3_counterexample :
    (ts_get_users_live ⟨[], fun _ _ => true, 9⟩ 5
        ⟨none, some (writeRecord 5 7)⟩).1.live_msg
      ≠ (⟨none, some (writeRecord 5 7)⟩ : BotState).live_msg := by
  have h1 := glm_recover_ok ⟨[], fun _ _ => true, 9⟩ ⟨none, some (writeRecord 5 7)⟩
    5 7 rfl rfl rfl
  simp [ts_get_users_live, h1]

/-- C3 (amended): a create-request while a live message exists creates no
second live message and performs no presence fetch and no formatting work:
with the handle in memory it sends exactly one reply-notice addressed to it
and leaves the state (handle included) unchanged; with the handle recovered
from disk it sends exactly one reply-notice addressed to the recovered
message, and the stored handle becomes that recovered message (same chat
and message ids as the durable record) rather than staying unset; hence a
create-request issued twice starting from the absent state yields exactly
one live-message send and one reply-notice across both calls. -/
theorem C3_no_second_live (env : Env) (chat : Int) (st : BotState) (m : TgMessage)
    (hm : st.live_msg = some m) :
    ts_get_users_live env chat st
      = (st, [Effect.send chat (some m.message_id) noticeText])
    ∧ (∀ (env2 : Env) (chat2 c i : Int) (st2 : BotState),
        st2.live_msg = none → st2.live_file = some (writeRecord c i) →
        env2.edit_ok c i = true →
        ts_get_users_live env2 chat2 st2
          = ({ st2 with live_msg := some ⟨c, i, "Initializing..."⟩ },
             [Effect.log noLiveLog, Effect.edit c i "Initializing...",
              Effect.log recoveredLog, Effect.send chat2 (some i) noticeText]))
    ∧ (∀ (env2 : Env) (chat2 : Int) (st2 : BotState),
        st2.live_msg = none → st2.live_file = none →
        ((ts_get_users_live env2 chat2 st2).2
            ++ (ts_get_users_live env2 chat2 (ts_get_users_live env2 chat2 st2).1).2).filter
            Effect.isSend
          = [Effect.send chat2 none
              (format_user_list (get_user_list env2.body).1 (get_user_list env2.body).2),
             Effect.send chat2 (some env2.fresh_id) noticeText]) := by
  refine ⟨ts_live_exists env chat st m hm, ?_, ?_⟩
  · intro env2 chat2 c i st2 hm2 hf2 hok2
    have h1 := glm_recover_ok env2 st2 c i hm2 hf2 hok2
    simp [ts_get_users_live, h1]
  · intro env2 chat2 st2 hm2 hf2
    rw [ts_create env2 chat2 st2 hm2 hf2]
    rw [ts_live_exists env2 chat2 _
      ⟨chat2, env2.fresh_id,
        format_user_list (get_user_list env2.body).1 (get_user_list env2.body).2⟩ rfl]
    simp [Effect.isSend]

theorem C3_witness :
    ts_get_users_live ⟨[], fun _ _ => true, 0⟩ 1 ⟨some ⟨1, 2, "x"⟩, none⟩
      = (⟨some ⟨1, 2, "x"⟩, none⟩, [Effect.send 1 (some 2) noticeText]) :=
  (C3_no_second_live ⟨[], fun _ _ => true, 0⟩ 1 ⟨some ⟨1, 2, "x"⟩, none⟩
    ⟨1, 2, "x"⟩ rfl).1
